import Mathlib

/-!
Verification of the request-signing and multi-endpoint broadcast subsystem of
the flashbotsrpc Go library, as a shallow embedding in Lean 4.

Serialized byte strings are modeled as Lean `String`s; Go `error` values from
external libraries are modeled as strings.  JSON bytes are modeled by their
parse outcome: `Option Json`, where `none` stands for bytes that are not valid
JSON.  External cryptographic primitives from go-ethereum
(`crypto.Keccak256Hash(·).Hex()`, `accounts.TextHash`, `crypto.Sign`,
`crypto.PubkeyToAddress(·).Hex()`, `hexutil.Encode`) are collaborators outside
this repository and are modeled as an abstract oracle structure; the code under
verification is the composition the repository builds out of them.
-/

namespace FlashbotsRpc

/-- Serialized bytes (request bodies, digests, signatures) modeled as strings. -/
abbrev Bytes := String

/-- A Go `error` value, modeled by its message. -/
abbrev GoError := String

/-- A JSON value, the parse of a response body. -/
inductive Json where
  | null
  | bool (b : Bool)
  | num (n : Int)
  | str (s : String)
  | arr (elems : List Json)
  | obj (fields : List (String × Json))

/-- First-match lookup of a key in a JSON object's field list. -/
def lookupField : List (String × Json) → String → Option Json
  | [], _ => none
  | (k, v) :: rest, key => if k = key then some v else lookupField rest key

/-- First-match lookup in an HTTP header list (Go `http.Header.Get` returns the
first value added for a key). -/
def lookupStr : List (String × String) → String → Option String
  | [], _ => none
  | (k, v) :: rest, key => if k = key then some v else lookupStr rest key

/-- Go struct `RelayErrorResponse { Error string `json:"error"` }`. -/
structure RelayErrorResponse where
  error : String
deriving DecidableEq

/-- Go struct `RpcError { Code int; Message string }`. -/
structure RpcError where
  code : Int
  message : String
deriving DecidableEq

/-- Go struct `rpcResponse { ID int; JSONRPC string; Result json.RawMessage;
Error *RpcError }`.  `result` is `none` when the field is absent (nil
RawMessage); a JSON `null` result is captured as `some Json.null`, as
`json.RawMessage` keeps the raw bytes `null`. -/
structure rpcResponse where
  id : Int
  jsonrpc : String
  result : Option Json
  error : Option RpcError

/-- `json.Unmarshal(data, new(RelayErrorResponse))`: succeeds on any JSON
object (absent or null `error` field leaves the zero value \x22\x22) and on
top-level `null`; fails on malformed JSON, on non-object top level, and when
the `error` field is neither a string nor null. -/
def decodeRelayErrorResponse : Option Json → Except GoError RelayErrorResponse
  | none => .error "invalid JSON"
  | some .null => .ok ⟨""⟩
  | some (.obj fields) =>
    match lookupField fields "error" with
    | none => .ok ⟨""⟩
    | some .null => .ok ⟨""⟩
    | some (.str s) => .ok ⟨s⟩
    | some _ => .error "cannot unmarshal into RelayErrorResponse.Error"
  | some _ => .error "cannot unmarshal into RelayErrorResponse"

/-- `json.Unmarshal` of a JSON value into Go struct `RpcError`. -/
def decodeRpcError : Json → Except GoError RpcError
  | .obj fields =>
    let codeR : Except GoError Int :=
      match lookupField fields "code" with
      | none => .ok 0
      | some .null => .ok 0
      | some (.num n) => .ok n
      | some _ => .error "cannot unmarshal into RpcError.Code"
    let msgR : Except GoError String :=
      match lookupField fields "message" with
      | none => .ok ""
      | some .null => .ok ""
      | some (.str s) => .ok s
      | some _ => .error "cannot unmarshal into RpcError.Message"
    match codeR, msgR with
    | .ok c, .ok m => .ok ⟨c, m⟩
    | .error e, _ => .error e
    | .ok _, .error e => .error e
  | .null => .ok ⟨0, ""⟩
  | _ => .error "cannot unmarshal into RpcError"

/-- `json.Unmarshal(data, new(rpcResponse))` following encoding/json semantics:
object fields `id`, `jsonrpc`, `error` are decoded by type (absent or null
keeps the zero value), `result` is a `json.RawMessage` capturing the raw field
value; malformed JSON or a non-object, non-null top level fails. -/
def decodeRpcResponse : Option Json → Except GoError rpcResponse
  | none => .error "invalid JSON"
  | some .null => .ok ⟨0, "", none, none⟩
  | some (.obj fields) =>
    let idR : Except GoError Int :=
      match lookupField fields "id" with
      | none => .ok 0
      | some .null => .ok 0
      | some (.num n) => .ok n
      | some _ => .error "cannot unmarshal into rpcResponse.ID"
    let verR : Except GoError String :=
      match lookupField fields "jsonrpc" with
      | none => .ok ""
      | some .null => .ok ""
      | some (.str s) => .ok s
      | some _ => .error "cannot unmarshal into rpcResponse.JSONRPC"
    let errR : Except GoError (Option RpcError) :=
      match lookupField fields "error" with
      | none => .ok none
      | some .null => .ok none
      | some j => (decodeRpcError j).map some
    match idR, verR, errR with
    | .ok i, .ok v, .ok e => .ok ⟨i, v, lookupField fields "result", e⟩
    | .error e, _, _ => .error e
    | .ok _, .error e, _ => .error e
    | .ok _, .ok _, .error e => .error e
  | some _ => .error "cannot unmarshal into rpcResponse"

/-- External go-ethereum cryptographic primitives, as an abstract oracle.
`keccakHex b` stands for `crypto.Keccak256Hash(b).Hex()` (0x-prefixed lowercase
hex of keccak-256), `textHash s` for `accounts.TextHash([]byte(s))` (the
Ethereum personal-message hash of the string bytes), `sign digest key` for
`crypto.Sign(digest, key)` (recoverable secp256k1 ECDSA signature, fallible),
`addressHex key` for `crypto.PubkeyToAddress(key.PublicKey).Hex()` (the
checksummed address derived from the key's public component), and
`hexEncode s` for `hexutil.Encode(s)` (0x-prefixed hex). -/
structure CryptoOracle where
  keccakHex : Bytes → String
  textHash : String → Bytes
  sign : Bytes → Bytes → Except GoError Bytes
  addressHex : Bytes → String
  hexEncode : Bytes → String

/-- The raw bytes of an HTTP response body paired with their parse outcome
(`none` when the bytes are not valid JSON). -/
structure ResponseData where
  raw : Bytes
  json : Option Json

/-- An HTTP POST request issued by the client: target URL, body bytes, and the
headers attached in order (`http.Header.Add`). -/
structure HttpRequest where
  url : String
  body : Bytes
  headers : List (String × String)

/-- The errors `CallWithFlashbotsSignature` and the broadcast aggregation can
return: a propagated Go error (marshal / request construction / transport /
body read), a relay error (an error wrapping `ErrRelayErrorResponse`, built by
`fmt.Errorf`), or a `json.Unmarshal` failure of the `rpcResponse` envelope. -/
inductive CallError where
  | goError (e : GoError)
  | relayError (msg : String)
  | jsonError (e : GoError)
deriving DecidableEq

/-- Client configuration relevant to `CallWithFlashbotsSignature`: the target
`url`, the caller-configured extra `Headers`, and the `Debug` flag. -/
structure FlashbotsRPCModel where
  url : String
  headers : List (String × String)
  debug : Bool

/-- Environment of one HTTP exchange: the outcome of `http.NewRequest` and the
combined outcome of `client.Do` plus reading the response body (`.error` for a
transport or read failure). -/
structure CallEnv where
  newRequest : Except GoError Unit
  respond : Except GoError ResponseData

/-- What one call produces: the HTTP requests actually issued, the debug log
lines emitted, and the returned `(json.RawMessage, error)` pair. -/
structure CallResult where
  requests : List HttpRequest
  logs : List String
  ret : Except CallError (Option Json)

/-- The debug log line `fmt.Sprintf("%s\nRequest: %s\nSignature: %s\nResponse:
%s\n", ...)`. -/
def debugLine (method : String) (request : Bytes) (signature : String)
    (response : Bytes) : String :=
  method ++ "\nRequest: " ++ request ++ "\nSignature: " ++ signature
    ++ "\nResponse: " ++ response ++ "\n"

/-- Source lines 209-218: unmarshal the body as a JSON-RPC `rpcResponse`; a
failed unmarshal is returned as-is, a set `Error` field becomes a relay error
wrapping the message, otherwise the raw `Result` is returned. -/
def classifyRpc (data : Option Json) : Except CallError (Option Json) :=
  match decodeRpcResponse data with
  | .error e => .error (.jsonError e)
  | .ok resp =>
    match resp.error with
    | some rpcErr => .error (.relayError rpcErr.message)
    | none => .ok resp.result

/-- Source lines 202-218: the response-body classification of
`CallWithFlashbotsSignature`.  First the flat `RelayErrorResponse` shape is
tried; if it unmarshals and carries a non-empty `Error` string the call returns
a relay error, otherwise the JSON-RPC envelope parse runs. -/
def classifyResponse (data : Option Json) : Except CallError (Option Json) :=
  match decodeRelayErrorResponse data with
  | .ok errorResp =>
    if errorResp.error ≠ "" then .error (.relayError errorResp.error)
    else classifyRpc data
  | .error _ => classifyRpc data

/-- The three fixed headers plus the configured extra headers, in the order the
source adds them. -/
def requestHeaders (signature : String) (extra : List (String × String)) :
    List (String × String) :=
  [("Content-Type", "application/json"), ("Accept", "application/json"),
   ("X-Flashbots-Signature", signature)] ++ extra

/-- Embedding of `CallWithFlashbotsSignature` (source lines 152-219).
`marshal` is the outcome of `json.Marshal(request)`; the serialized body is
keccak-hashed, the hex hash string is personal-message hashed and signed, the
signature header is `address ++ ":" ++ hex(sig)`, one POST is issued, and the
response body is classified by `classifyResponse`. -/
def callWithFlashbotsSignature (c : CryptoOracle) (rpc : FlashbotsRPCModel)
    (method : String) (privKey : Bytes) (marshal : Except GoError Bytes)
    (env : CallEnv) : CallResult :=
  match marshal with
  | .error err => ⟨[], [], .error (.goError err)⟩
  | .ok body =>
    let hashedBody := c.keccakHex body
    match c.sign (c.textHash hashedBody) privKey with
    | .error err => ⟨[], [], .error (.goError err)⟩
    | .ok sig =>
      let signature := c.addressHex privKey ++ ":" ++ c.hexEncode sig
      match env.newRequest with
      | .error err => ⟨[], [], .error (.goError err)⟩
      | .ok _ =>
        let req : HttpRequest := ⟨rpc.url, body, requestHeaders signature rpc.headers⟩
        match env.respond with
        | .error err => ⟨[req], [], .error (.goError err)⟩
        | .ok data =>
          let logs :=
            if rpc.debug then [debugLine method body signature data.raw] else []
          ⟨[req], logs, classifyResponse data.json⟩

/-- Broadcaster configuration: the endpoint URL list fixed at construction,
the extra headers, and the `Debug` flag. -/
structure BuilderBroadcastRPCModel where
  urls : List String
  headers : List (String × String)
  debug : Bool

/-- Per-endpoint environment: the outcome of `http.NewRequest` for that URL and
the combined outcome of `client.Do` plus `ioutil.ReadAll`. -/
structure EndpointEnv where
  newRequest : Except GoError Unit
  respond : Except GoError ResponseData

/-- Go struct `broadcastRequestResponse { Msg json.RawMessage; Err error }`. -/
structure broadcastRequestResponse where
  msg : Option Json
  err : Option CallError

/-- What one broadcast produces: how many times `crypto.Sign` was invoked, the
HTTP requests actually issued, the debug log lines, and the returned
per-endpoint response list. -/
structure BroadcastResult where
  signCount : Nat
  requests : List HttpRequest
  logs : List String
  responses : List broadcastRequestResponse

/-- The response-body bytes an endpoint's goroutine delivers on the channel:
`some` only when request construction, transport and body read all succeed;
on any of those errors the goroutine returns without sending anything. -/
def endpointSent (env : String → EndpointEnv) (url : String) :
    Option ResponseData :=
  match (env url).newRequest with
  | .error _ => none
  | .ok _ =>
    match (env url).respond with
    | .error _ => none
    | .ok data => some data

/-- Source lines 869-896: the aggregation loop over the channel.  Each received
body is classified exactly as in `CallWithFlashbotsSignature`; any relay error,
unmarshal failure or set envelope `Error` makes the loop return a singleton
list holding only that error, discarding the responses accumulated so far and
the bodies not yet received; a clean envelope appends `{Msg: Result, Err: nil}`
and continues. -/
def aggregateResponses (responses : List broadcastRequestResponse) :
    List (Option Json) → List broadcastRequestResponse
  | [] => responses
  | data :: rest =>
    match classifyResponse data with
    | .error e => [⟨none, some e⟩]
    | .ok res => aggregateResponses (responses ++ [⟨res, none⟩]) rest

/-- Embedding of `broadcastRequest` (source lines 794-897).  `marshal` is the
outcome of `json.Marshal(request)`; the signature is computed once from the
serialized body; one goroutine per URL issues a POST carrying that signature
header and, on a fully successful exchange, delivers the body on the channel;
`arrival` is the order in which goroutine deliveries are received (completion
order, arbitrary relative to `urls`); the aggregation loop folds the received
bodies.  Goroutines whose request construction, transport or read fails
deliver nothing. -/
def broadcastRequest (c : CryptoOracle) (b : BuilderBroadcastRPCModel)
    (method : String) (privKey : Bytes) (marshal : Except GoError Bytes)
    (env : String → EndpointEnv) (arrival : List String) : BroadcastResult :=
  match marshal with
  | .error err => ⟨0, [], [], [⟨none, some (.goError err)⟩]⟩
  | .ok body =>
    let hashedBody := c.keccakHex body
    match c.sign (c.textHash hashedBody) privKey with
    | .error err => ⟨1, [], [], [⟨none, some (.goError err)⟩]⟩
    | .ok sig =>
      let signature := c.addressHex privKey ++ ":" ++ c.hexEncode sig
      let requests := b.urls.filterMap (fun url =>
        match (env url).newRequest with
        | .error _ => none
        | .ok _ => some (⟨url, body, requestHeaders signature b.headers⟩ : HttpRequest))
      let received := arrival.filterMap (fun url =>
        (endpointSent env url).map (fun d => d.json))
      let logs :=
        if b.debug then
          (arrival.filterMap (endpointSent env)).map (fun d =>
            debugLine method d.raw signature d.raw)
        else []
      ⟨1, requests, logs, aggregateResponses [] received⟩

/-- Go struct `FlashbotsSendBundleResponse { BundleHash string }`. -/
structure FlashbotsSendBundleResponse where
  bundleHash : String
deriving DecidableEq

/-- `json.Unmarshal(msg, new(FlashbotsSendBundleResponse))`; unmarshaling a nil
`json.RawMessage` (`none`) fails with "unexpected end of JSON input". -/
def decodeSendBundleResponse : Option Json →
    Except GoError FlashbotsSendBundleResponse
  | none => .error "unexpected end of JSON input"
  | some .null => .ok ⟨""⟩
  | some (.obj fields) =>
    match lookupField fields "bundleHash" with
    | none => .ok ⟨""⟩
    | some .null => .ok ⟨""⟩
    | some (.str s) => .ok ⟨s⟩
    | some _ => .error "cannot unmarshal into FlashbotsSendBundleResponse.BundleHash"
  | some _ => .error "cannot unmarshal into FlashbotsSendBundleResponse"

/-- Go struct `BuilderBroadcastResponse { BundleResponse
FlashbotsSendBundleResponse; Err error }`. -/
structure BuilderBroadcastResponse where
  bundleResponse : FlashbotsSendBundleResponse
  err : Option CallError

/-- Source lines 777-784: the loop of `BroadcastBundle`.  For a response with
a set `Err` an error-only entry is appended; then — with no `continue` — the
response's `Msg` is unmarshaled anyway and a second entry is appended, so an
errored response contributes two entries and a clean one contributes one. -/
def processBroadcastResponses :
    List broadcastRequestResponse → List BuilderBroadcastResponse
  | [] => []
  | r :: rest =>
    (match r.err with
     | some e => [(⟨⟨""⟩, some e⟩ : BuilderBroadcastResponse)]
     | none => []) ++
    (match decodeSendBundleResponse r.msg with
     | .ok fb => [(⟨fb, none⟩ : BuilderBroadcastResponse)]
     | .error e => [(⟨⟨""⟩, some (.jsonError e)⟩ : BuilderBroadcastResponse)]) ++
    processBroadcastResponses rest

/-- Embedding of `BroadcastBundle` (source lines 772-787): broadcast
`eth_sendBundle` and post-process the per-endpoint responses. -/
def BroadcastBundle (c : CryptoOracle) (b : BuilderBroadcastRPCModel)
    (privKey : Bytes) (marshal : Except GoError Bytes)
    (env : String → EndpointEnv) (arrival : List String) :
    List BuilderBroadcastResponse :=
  processBroadcastResponses
    (broadcastRequest c b "eth_sendBundle" privKey marshal env arrival).responses

/-- A concrete crypto oracle for evaluating the embedding on closed inputs;
each primitive tags its argument so distinct compositions stay distinct. -/
def oracleW : CryptoOracle :=
  ⟨fun b => "KH<" ++ b ++ ">",
   fun s => "TH<" ++ s ++ ">",
   fun d k => .ok ("SIG<" ++ d ++ "|" ++ k ++ ">"),
   fun k => "ADDR<" ++ k ++ ">",
   fun s => "0x" ++ s⟩

/-- A crypto oracle whose signing operation fails. -/
def oracleSignFail : CryptoOracle :=
  ⟨fun b => "KH<" ++ b ++ ">",
   fun s => "TH<" ++ s ++ ">",
   fun _ _ => .error "invalid private key",
   fun k => "ADDR<" ++ k ++ ">",
   fun s => "0x" ++ s⟩

/-- A concrete single-endpoint client with debug off and no extra headers. -/
def rpcW : FlashbotsRPCModel := ⟨"https://relay.test", [], false⟩

/-- A call environment whose exchange succeeds with a clean JSON-RPC body. -/
def envOkW : CallEnv := ⟨.ok (), .ok ⟨"RAW", some (.obj [("result", .num 7)])⟩⟩

/-- A concrete broadcaster with two endpoint URLs. -/
def bW : BuilderBroadcastRPCModel := ⟨["a", "b"], [], false⟩

/-- A concrete broadcaster with one endpoint URL. -/
def b1W : BuilderBroadcastRPCModel := ⟨["a"], [], false⟩

/-- All endpoints succeed with a clean JSON-RPC body. -/
def envSuccess : String → EndpointEnv :=
  fun _ => ⟨.ok (), .ok ⟨"RAW", some (.obj [("result", .num 7)])⟩⟩

/-- Endpoint "a" answers with a flat relay error body, endpoint "b" succeeds. -/
def envRelayErrAtA : String → EndpointEnv := fun url =>
  if url = "a" then ⟨.ok (), .ok ⟨"RAWERR", some (.obj [("error", .str "boom")])⟩⟩
  else ⟨.ok (), .ok ⟨"RAW", some (.obj [("result", .num 7)])⟩⟩

/-- Endpoint "b" answers with bytes that are not valid JSON, endpoint "a"
succeeds. -/
def envMalformedAtB : String → EndpointEnv := fun url =>
  if url = "b" then ⟨.ok (), .ok ⟨"garbage", none⟩⟩
  else ⟨.ok (), .ok ⟨"RAW", some (.obj [("result", .num 7)])⟩⟩

/-- Every endpoint's transport fails (e.g. a timeout or refused connection). -/
def envTransportErr : String → EndpointEnv :=
  fun _ => ⟨.ok (), .error "connection refused"⟩

/-- C2: the claim that `broadcastRequest` over N endpoint URLs always returns
exactly N per-endpoint outcomes fails on the code: with N = 2 endpoints where
"a" answers a flat relay error and "b" a clean success, the aggregation loop
returns early with a singleton, so only 1 outcome is returned. -/
theorem broadcastRequest_outcome_count_defect :
    bW.urls.length = 2 ∧
    (broadcastRequest oracleW bW "eth_sendBundle" "k" (.ok "BODY")
        envRelayErrAtA ["a", "b"]).responses.length = 1 :=
  ⟨rfl, rfl⟩

/-- C3: the claim that one endpoint's malformed response does not remove the
other endpoints' outcomes fails on the code: with endpoint "b" malformed and
endpoint "a" successful (arriving after "b"), the returned collection is a
singleton holding only b's unmarshal error, although a's body classifies as a
success. -/
theorem broadcastRequest_isolation_defect :
    (broadcastRequest oracleW bW "eth_sendBundle" "k" (.ok "BODY")
        envMalformedAtB ["b", "a"]).responses
      = [⟨none, some (.jsonError "invalid JSON")⟩] ∧
    classifyResponse (some (.obj [("result", .num 7)])) = .ok (some (.num 7)) :=
  ⟨rfl, rfl⟩

/-- C7: the claim that every error in an endpoint's request/response cycle
appears in the returned collection fails on the code: a transport error makes
the goroutine return without delivering anything, so with one endpoint whose
transport fails the returned collection is empty and the error appears
nowhere. -/
theorem broadcastRequest_swallows_transport_error :
    b1W.urls.length = 1 ∧
    (broadcastRequest oracleW b1W "eth_sendBundle" "k" (.ok "BODY")
        envTransportErr ["a"]).responses = [] :=
  ⟨rfl, rfl⟩

theorem lookupStr_requestHeaders (signature : String)
    (extra : List (String × String)) :
    lookupStr (requestHeaders signature extra) "X-Flashbots-Signature"
      = some signature := by
  simp [requestHeaders, lookupStr]

/-- C1: whenever serialization yields `body` and the external signer returns
`sig` for the digest `textHash (keccakHex body)` — the personal-message hash of
the 0x-hex keccak of the body, i.e. the double hash with an intermediate hex
string — the `X-Flashbots-Signature` header of every request issued by
`CallWithFlashbotsSignature` and by `broadcastRequest` is exactly the
checksummed signer address, then ":", then the 0x-hex encoding of `sig`. -/
theorem signature_header_double_hash (c : CryptoOracle)
    (rpc : FlashbotsRPCModel) (b : BuilderBroadcastRPCModel)
    (methodA methodB : String) (privKey : Bytes) (env : CallEnv)
    (envB : String → EndpointEnv) (arrival : List String)
    (marshal : Except GoError Bytes) (body sig : Bytes)
    (hm : marshal = .ok body)
    (hs : c.sign (c.textHash (c.keccakHex body)) privKey = .ok sig) :
    (∀ req ∈ (callWithFlashbotsSignature c rpc methodA privKey marshal env).requests,
        lookupStr req.headers "X-Flashbots-Signature"
          = some (c.addressHex privKey ++ ":" ++ c.hexEncode sig)) ∧
    (∀ req ∈ (broadcastRequest c b methodB privKey marshal envB arrival).requests,
        lookupStr req.headers "X-Flashbots-Signature"
          = some (c.addressHex privKey ++ ":" ++ c.hexEncode sig)) := by
  subst hm
  constructor
  · intro req hreq
    obtain ⟨nr, rsp⟩ := env
    cases nr with
    | error e => simp [callWithFlashbotsSignature, hs] at hreq
    | ok u =>
      cases rsp with
      | error e =>
        simp [callWithFlashbotsSignature, hs] at hreq
        subst hreq
        exact lookupStr_requestHeaders _ _
      | ok data =>
        simp [callWithFlashbotsSignature, hs] at hreq
        subst hreq
        exact lookupStr_requestHeaders _ _
  · intro req hreq
    simp only [broadcastRequest, hs] at hreq
    rw [List.mem_filterMap] at hreq
    obtain ⟨url, -, hsome⟩ := hreq
    cases hnr : (envB url).newRequest with
    | error e => rw [hnr] at hsome; cases hsome
    | ok u =>
      rw [hnr] at hsome
      cases hsome
      exact lookupStr_requestHeaders _ _

/-- C1 witness: at the concrete oracle, key "k" and body "BODY", the issued
request carries the composed signature header. -/
theorem signature_header_double_hash_instance :
    lookupStr
      (HttpRequest.headers
        ⟨"https://relay.test", "BODY",
          requestHeaders "ADDR<k>:0xSIG<TH<KH<BODY>>|k>" []⟩)
      "X-Flashbots-Signature"
      = some ("ADDR<k>" ++ ":" ++ ("0x" ++ "SIG<TH<KH<BODY>>|k>")) := by
  have h := (signature_header_double_hash oracleW rpcW bW "m" "m" "k" envOkW
      envSuccess ["a", "b"] (.ok "BODY") "BODY" "SIG<TH<KH<BODY>>|k>" rfl rfl).1
  exact h _ (List.mem_singleton_self _)

/-- C4: for every broadcast whose serialization yields `body` and whose signer
returns `sig`, the signing operation is invoked exactly once, and every
endpoint's issued request carries the identical signature header value — no
endpoint receives an independently computed signature. -/
theorem broadcastRequest_single_signature (c : CryptoOracle)
    (b : BuilderBroadcastRPCModel) (method : String) (privKey : Bytes)
    (marshal : Except GoError Bytes) (env : String → EndpointEnv)
    (arrival : List String) (body sig : Bytes)
    (hm : marshal = .ok body)
    (hs : c.sign (c.textHash (c.keccakHex body)) privKey = .ok sig) :
    (broadcastRequest c b method privKey marshal env arrival).signCount = 1 ∧
    ∀ req ∈ (broadcastRequest c b method privKey marshal env arrival).requests,
      lookupStr req.headers "X-Flashbots-Signature"
        = some (c.addressHex privKey ++ ":" ++ c.hexEncode sig) := by
  subst hm
  constructor
  · simp [broadcastRequest, hs]
  · intro req hreq
    simp only [broadcastRequest, hs] at hreq
    rw [List.mem_filterMap] at hreq
    obtain ⟨url, -, hsome⟩ := hreq
    cases hnr : (env url).newRequest with
    | error e => rw [hnr] at hsome; cases hsome
    | ok u =>
      rw [hnr] at hsome
      cases hsome
      exact lookupStr_requestHeaders _ _

/-- C4 witness: at the concrete oracle and broadcaster, the sign count is 1 and
both issued requests carry the same composed header. -/
theorem broadcastRequest_single_signature_instance :
    (broadcastRequest oracleW bW "eth_sendBundle" "k" (.ok "BODY") envSuccess
        ["a", "b"]).signCount = 1 ∧
    lookupStr
      (HttpRequest.headers
        ⟨"b", "BODY", requestHeaders "ADDR<k>:0xSIG<TH<KH<BODY>>|k>" []⟩)
      "X-Flashbots-Signature"
      = some ("ADDR<k>" ++ ":" ++ ("0x" ++ "SIG<TH<KH<BODY>>|k>")) := by
  have h := broadcastRequest_single_signature oracleW bW "eth_sendBundle" "k"
      (.ok "BODY") envSuccess ["a", "b"] "BODY" "SIG<TH<KH<BODY>>|k>" rfl rfl
  exact ⟨h.1, h.2 _ (by simp [broadcastRequest, oracleW, bW, envSuccess, requestHeaders])⟩

/-- C8: when serialization fails, or serialization succeeds and the signing
operation fails, both `CallWithFlashbotsSignature` and `broadcastRequest`
return that error and issue no HTTP request to any endpoint. -/
theorem signing_failure_no_http (c : CryptoOracle) (rpc : FlashbotsRPCModel)
    (b : BuilderBroadcastRPCModel) (methodA methodB : String)
    (privKey : Bytes) (marshal : Except GoError Bytes) (env : CallEnv)
    (envB : String → EndpointEnv) (arrival : List String) (e : GoError)
    (h : marshal = .error e ∨
      ∃ body, marshal = .ok body ∧
        c.sign (c.textHash (c.keccakHex body)) privKey = .error e) :
    ((callWithFlashbotsSignature c rpc methodA privKey marshal env).requests = []
      ∧ (callWithFlashbotsSignature c rpc methodA privKey marshal env).ret
          = .error (.goError e)) ∧
    ((broadcastRequest c b methodB privKey marshal envB arrival).requests = []
      ∧ (broadcastRequest c b methodB privKey marshal envB arrival).responses
          = [⟨none, some (.goError e)⟩]) := by
  rcases h with hm | ⟨body, hm, hs⟩
  · subst hm
    exact ⟨⟨rfl, rfl⟩, ⟨rfl, rfl⟩⟩
  · subst hm
    refine ⟨⟨?_, ?_⟩, ⟨?_, ?_⟩⟩ <;>
      simp [callWithFlashbotsSignature, broadcastRequest, hs]

/-- C8 witness: with a failing signer, the concrete call and broadcast return
the signing error and issue no requests. -/
theorem signing_failure_no_http_instance :
    ((callWithFlashbotsSignature oracleSignFail rpcW "m" "k" (.ok "BODY")
        envOkW).requests = []
      ∧ (callWithFlashbotsSignature oracleSignFail rpcW "m" "k" (.ok "BODY")
          envOkW).ret = .error (.goError "invalid private key")) ∧
    ((broadcastRequest oracleSignFail bW "m" "k" (.ok "BODY") envSuccess
        ["a", "b"]).requests = []
      ∧ (broadcastRequest oracleSignFail bW "m" "k" (.ok "BODY") envSuccess
          ["a", "b"]).responses
          = [⟨none, some (.goError "invalid private key")⟩]) :=
  signing_failure_no_http oracleSignFail rpcW bW "m" "m" "k" (.ok "BODY")
    envOkW envSuccess ["a", "b"] "invalid private key"
    (Or.inr ⟨"BODY", rfl, rfl⟩)

theorem callWith_ret_eq_classify (c : CryptoOracle) (rpc : FlashbotsRPCModel)
    (method : String) (privKey : Bytes) (marshal : Except GoError Bytes)
    (env : CallEnv) (body sig : Bytes) (data : ResponseData)
    (hm : marshal = .ok body)
    (hs : c.sign (c.textHash (c.keccakHex body)) privKey = .ok sig)
    (hn : env.newRequest = .ok ())
    (hr : env.respond = .ok data) :
    (callWithFlashbotsSignature c rpc method privKey marshal env).ret
      = classifyResponse data.json := by
  subst hm
  obtain ⟨nr, rsp⟩ := env
  simp only at hn hr
  subst hn
  subst hr
  simp [callWithFlashbotsSignature, hs]

/-- C5: whenever the response body unmarshals as the flat relay-error shape
with a non-empty error string, `CallWithFlashbotsSignature` returns a relay
error (wrapping `ErrRelayErrorResponse`) carrying exactly that string; the
flat-error check runs before the JSON-RPC parse, so this holds whatever the
JSON-RPC parse of the same body would give. -/
theorem flat_relay_error_precedence (c : CryptoOracle)
    (rpc : FlashbotsRPCModel) (method : String) (privKey : Bytes)
    (marshal : Except GoError Bytes) (env : CallEnv) (body sig : Bytes)
    (data : ResponseData) (er : RelayErrorResponse)
    (hm : marshal = .ok body)
    (hs : c.sign (c.textHash (c.keccakHex body)) privKey = .ok sig)
    (hn : env.newRequest = .ok ())
    (hr : env.respond = .ok data)
    (he : decodeRelayErrorResponse data.json = .ok er)
    (hne : er.error ≠ "") :
    (callWithFlashbotsSignature c rpc method privKey marshal env).ret
      = .error (.relayError er.error) := by
  rw [callWith_ret_eq_classify c rpc method privKey marshal env body sig data
    hm hs hn hr]
  simp [classifyResponse, he, hne]

/-- C5 witness: a body parsing as the flat shape with error "boom" makes the
concrete call return the relay error "boom". -/
theorem flat_relay_error_precedence_instance :
    (callWithFlashbotsSignature oracleW rpcW "m" "k" (.ok "BODY")
        (⟨.ok (), .ok ⟨"RAWERR", some (.obj [("error", .str "boom")])⟩⟩ :
          CallEnv)).ret
      = .error (.relayError "boom") :=
  flat_relay_error_precedence oracleW rpcW "m" "k" (.ok "BODY") _ "BODY"
    "SIG<TH<KH<BODY>>|k>" ⟨"RAWERR", some (.obj [("error", .str "boom")])⟩
    ⟨"boom"⟩ rfl rfl rfl rfl rfl (by decide)

/-- C6: when the response body does not classify as a flat relay error, the
outcome follows the JSON-RPC envelope parse: a set `error` field yields a relay
error carrying exactly the envelope error's message, a clean envelope yields
the raw `result` payload with no error, and a body that fails the envelope
parse (in particular malformed JSON, which fails both parse steps) yields a
JSON error, which is a different constructor from the relay error. -/
theorem rpc_envelope_classification (c : CryptoOracle)
    (rpc : FlashbotsRPCModel) (method : String) (privKey : Bytes)
    (marshal : Except GoError Bytes) (env : CallEnv) (body sig : Bytes)
    (data : ResponseData)
    (hm : marshal = .ok body)
    (hs : c.sign (c.textHash (c.keccakHex body)) privKey = .ok sig)
    (hn : env.newRequest = .ok ())
    (hr : env.respond = .ok data)
    (hflat : ∀ er, decodeRelayErrorResponse data.json = .ok er → er.error = "") :
    (∀ resp, decodeRpcResponse data.json = .ok resp →
        (callWithFlashbotsSignature c rpc method privKey marshal env).ret
          = match resp.error with
            | some rpcErr => .error (.relayError rpcErr.message)
            | none => .ok resp.result) ∧
    (∀ e, decodeRpcResponse data.json = .error e →
        (callWithFlashbotsSignature c rpc method privKey marshal env).ret
          = .error (.jsonError e) ∧
        ∀ s, (CallError.jsonError e) ≠ .relayError s) := by
  have hret := callWith_ret_eq_classify c rpc method privKey marshal env body
    sig data hm hs hn hr
  have hcls : classifyResponse data.json = classifyRpc data.json := by
    unfold classifyResponse
    cases hrel : decodeRelayErrorResponse data.json with
    | ok er => simp [hflat er hrel]
    | error e => rfl
  constructor
  · intro resp hresp
    rw [hret, hcls]
    simp [classifyRpc, hresp]
  · intro e he
    refine ⟨?_, ?_⟩
    · rw [hret, hcls]
      simp [classifyRpc, he]
    · intro s
      exact fun hcontra => CallError.noConfusion hcontra

/-- C6 witness: a body that is a JSON-RPC envelope whose error field is set
(and which is not a flat relay error) makes the concrete call return the relay
error with exactly the envelope message "bad param". -/
theorem rpc_envelope_classification_instance :
    (callWithFlashbotsSignature oracleW rpcW "m" "k" (.ok "BODY")
        (⟨.ok (),
          .ok ⟨"RAW6",
            some (.obj [("error",
              .obj [("code", .num 1), ("message", .str "bad param")])])⟩⟩ :
          CallEnv)).ret
      = .error (.relayError "bad param") := by
  have h := (rpc_envelope_classification oracleW rpcW "m" "k" (.ok "BODY")
      (⟨.ok (),
        .ok ⟨"RAW6",
          some (.obj [("error",
            .obj [("code", .num 1), ("message", .str "bad param")])])⟩⟩ :
        CallEnv)
      "BODY" "SIG<TH<KH<BODY>>|k>"
      ⟨"RAW6",
        some (.obj [("error",
          .obj [("code", .num 1), ("message", .str "bad param")])])⟩
      rfl rfl rfl rfl (fun er h => nomatch h)).1
      ⟨0, "", none, some ⟨1, "bad param"⟩⟩ rfl
  exact h

theorem callWith_debug_independent (c : CryptoOracle) (url : String)
    (hdrs : List (String × String)) (d₁ d₂ : Bool) (method : String)
    (privKey : Bytes) (marshal : Except GoError Bytes) (env : CallEnv) :
    ((callWithFlashbotsSignature c ⟨url, hdrs, d₁⟩ method privKey marshal env).ret
        = (callWithFlashbotsSignature c ⟨url, hdrs, d₂⟩ method privKey marshal env).ret)
    ∧ ((callWithFlashbotsSignature c ⟨url, hdrs, d₁⟩ method privKey marshal env).requests
        = (callWithFlashbotsSignature c ⟨url, hdrs, d₂⟩ method privKey marshal env).requests) := by
  obtain ⟨nr, rsp⟩ := env
  cases marshal with
  | error e => exact ⟨rfl, rfl⟩
  | ok body =>
    cases hsig : c.sign (c.textHash (c.keccakHex body)) privKey with
    | error e => simp [callWithFlashbotsSignature, hsig]
    | ok sig =>
      cases nr with
      | error e => simp [callWithFlashbotsSignature, hsig]
      | ok u =>
        cases rsp with
        | error e => simp [callWithFlashbotsSignature, hsig]
        | ok data => simp [callWithFlashbotsSignature, hsig]

theorem broadcast_debug_independent (c : CryptoOracle) (urls : List String)
    (bh : List (String × String)) (d₁ d₂ : Bool) (method : String)
    (privKey : Bytes) (marshal : Except GoError Bytes)
    (env : String → EndpointEnv) (arrival : List String) :
    ((broadcastRequest c ⟨urls, bh, d₁⟩ method privKey marshal env arrival).responses
        = (broadcastRequest c ⟨urls, bh, d₂⟩ method privKey marshal env arrival).responses)
    ∧ ((broadcastRequest c ⟨urls, bh, d₁⟩ method privKey marshal env arrival).requests
        = (broadcastRequest c ⟨urls, bh, d₂⟩ method privKey marshal env arrival).requests)
    ∧ ((broadcastRequest c ⟨urls, bh, d₁⟩ method privKey marshal env arrival).signCount
        = (broadcastRequest c ⟨urls, bh, d₂⟩ method privKey marshal env arrival).signCount) := by
  cases marshal with
  | error e => exact ⟨rfl, rfl, rfl⟩
  | ok body =>
    cases hsig : c.sign (c.textHash (c.keccakHex body)) privKey with
    | error e => simp [broadcastRequest, hsig]
    | ok sig => simp [broadcastRequest, hsig]

/-- C9: with the `Debug` flag toggled and every other input held fixed, the
returned value and error classification of `CallWithFlashbotsSignature` — and
the issued requests, and likewise the responses, requests and sign count of
`broadcastRequest` — are identical; debug logging never alters control flow or
the returned value. -/
theorem debug_flag_no_effect (c : CryptoOracle) (url : String)
    (hdrs : List (String × String)) (urls : List String)
    (bh : List (String × String)) (methodA methodB : String)
    (privKey : Bytes) (marshal : Except GoError Bytes) (env : CallEnv)
    (envB : String → EndpointEnv) (arrival : List String) (d₁ d₂ : Bool) :
    ((callWithFlashbotsSignature c ⟨url, hdrs, d₁⟩ methodA privKey marshal env).ret
        = (callWithFlashbotsSignature c ⟨url, hdrs, d₂⟩ methodA privKey marshal env).ret)
    ∧ ((callWithFlashbotsSignature c ⟨url, hdrs, d₁⟩ methodA privKey marshal env).requests
        = (callWithFlashbotsSignature c ⟨url, hdrs, d₂⟩ methodA privKey marshal env).requests)
    ∧ ((broadcastRequest c ⟨urls, bh, d₁⟩ methodB privKey marshal envB arrival).responses
        = (broadcastRequest c ⟨urls, bh, d₂⟩ methodB privKey marshal envB arrival).responses)
    ∧ ((broadcastRequest c ⟨urls, bh, d₁⟩ methodB privKey marshal envB arrival).requests
        = (broadcastRequest c ⟨urls, bh, d₂⟩ methodB privKey marshal envB arrival).requests)
    ∧ ((broadcastRequest c ⟨urls, bh, d₁⟩ methodB privKey marshal envB arrival).signCount
        = (broadcastRequest c ⟨urls, bh, d₂⟩ methodB privKey marshal envB arrival).signCount) :=
  ⟨(callWith_debug_independent c url hdrs d₁ d₂ methodA privKey marshal env).1,
   (callWith_debug_independent c url hdrs d₁ d₂ methodA privKey marshal env).2,
   (broadcast_debug_independent c urls bh d₁ d₂ methodB privKey marshal envB arrival).1,
   (broadcast_debug_independent c urls bh d₁ d₂ methodB privKey marshal envB arrival).2.1,
   (broadcast_debug_independent c urls bh d₁ d₂ methodB privKey marshal envB arrival).2.2⟩

theorem processBroadcastResponses_length (rs : List broadcastRequestResponse) :
    (processBroadcastResponses rs).length
      = (rs.filter (fun r => r.err.isNone)).length
        + 2 * (rs.filter (fun r => r.err.isSome)).length := by
  induction rs with
  | nil => rfl
  | cons r rest ih =>
    cases herr : r.err <;>
      cases hdec : decodeSendBundleResponse r.msg <;>
        simp [processBroadcastResponses, herr, hdec, List.filter_cons, ih] <;>
          omega

/-- C10: `BroadcastBundle` returns one entry per successful per-endpoint
result and two entries per errored one: for an errored result (whose `Msg` is
nil) it appends the error-only entry and then, with no loop `continue`, also
unmarshals the nil message and appends a second entry holding the unmarshal
failure. -/
theorem BroadcastBundle_error_entries_doubled (c : CryptoOracle)
    (b : BuilderBroadcastRPCModel) (privKey : Bytes)
    (marshal : Except GoError Bytes) (env : String → EndpointEnv)
    (arrival : List String) :
    ((BroadcastBundle c b privKey marshal env arrival).length
      = ((broadcastRequest c b "eth_sendBundle" privKey marshal env
            arrival).responses.filter (fun r => r.err.isNone)).length
        + 2 * ((broadcastRequest c b "eth_sendBundle" privKey marshal env
            arrival).responses.filter (fun r => r.err.isSome)).length)
    ∧ ∀ (r : broadcastRequestResponse) (e : CallError)
        (rest : List broadcastRequestResponse),
        r.err = some e → r.msg = none →
        processBroadcastResponses (r :: rest)
          = ⟨⟨""⟩, some e⟩
            :: ⟨⟨""⟩, some (.jsonError "unexpected end of JSON input")⟩
            :: processBroadcastResponses rest := by
  constructor
  · exact processBroadcastResponses_length _
  · intro r e rest herr hmsg
    simp [processBroadcastResponses, herr, hmsg, decodeSendBundleResponse]

/-- C10 witness: a single errored per-endpoint result with nil message yields
exactly the two entries — the error-only one and the nil-unmarshal one. -/
theorem BroadcastBundle_error_entries_doubled_instance :
    processBroadcastResponses [⟨none, some (.relayError "boom")⟩]
      = [⟨⟨""⟩, some (.relayError "boom")⟩,
         ⟨⟨""⟩, some (.jsonError "unexpected end of JSON input")⟩] := by
  have h := (BroadcastBundle_error_entries_doubled oracleW bW "k" (.ok "BODY")
      envSuccess ["a", "b"]).2 ⟨none, some (.relayError "boom")⟩
      (.relayError "boom") [] rfl rfl
  simpa [processBroadcastResponses] using h

end FlashbotsRpc
